import Mathlib

/-!
Verification of the Automated-Medical-Bill-Adjudication pipeline.

Shallow embedding of the Python sources:
* `Lambda0` — upload entry point (`src/lambda0.py`)
* `Lambda1` — extraction stage (`src/lambda1.py`): retryable model invoker,
  JSON extraction, numeric coercion, storage sanitizer, line-item rows
* `Lambda2` — validation engine (`src/lambda2.py`)
* `Lambda3` — reconciliation stage (`src/lambda3/index.py`,
  `src/lambda3/parsingPolicies.py`, `src/lambda3/fetchPatientData.py`)

External collaborators (S3, DynamoDB, the Bedrock model, base64 transport)
are modelled as explicit inputs or abstract function parameters; handlers
become pure functions from those inputs to results plus effect traces.
-/

namespace PyStr

/-- Python `str.lower()` (ASCII case folding, the only case exercised by
the reason codes and file extensions involved). -/
def lower (s : String) : String := String.mk (s.data.map Char.toLower)

/-- Python `str.endswith(suffix)`. -/
def endsWith (s sfx : String) : Bool := sfx.data.isSuffixOf s.data

end PyStr

namespace Lambda0

/-- A parsed upload request body (`src/lambda0.py` `lambda_handler`).
`file_content` is modelled as the already-decoded byte payload (base64
transport is external I/O); a JSON key that is absent maps to `none`,
matching the `KeyError` path of `body[...]` for `file_name`/`file_content`
and `body.get('job_id')` for `job_id`. -/
structure UploadEvent where
  file_name : Option String
  file_content : Option String
  job_id : Option String
deriving Repr, DecidableEq

/-- An object written to the bucket by `s3.put_object`. -/
structure StoredObject where
  key : String
  body : String
  contentType : String
  jobId : String
deriving Repr, DecidableEq

/-- The HTTP-style response together with the optional stored object. -/
structure UploadResponse where
  status : Nat
  body : String
  stored : Option StoredObject
deriving Repr, DecidableEq

/-- Python truthiness of an optional string (`not x`): `None` and `""` are falsy. -/
def optFalsy : Option String → Bool
  | Option.none => true
  | some s => s = ""

/-- Left-to-right scan counting non-overlapping occurrences; the fuel is an
upper bound on the scan steps (each step consumes at least one character),
making the recursion structural. -/
def countOccsAux (needle : List Char) : Nat → List Char → Nat
  | 0, _ => 0
  | _ + 1, [] => 0
  | fuel + 1, c :: rest =>
    if needle ≠ [] ∧ needle.isPrefixOf (c :: rest) then
      1 + countOccsAux needle fuel (rest.drop (needle.length - 1))
    else
      countOccsAux needle fuel rest

/-- Count of non-overlapping occurrences of `needle` in `hay`, scanning left
to right — the semantics of Python `bytes.count`. -/
def countOccs (needle : List Char) (hay : List Char) : Nat :=
  countOccsAux needle hay.length hay

/-- The page-object marker `b'/Type /Page'` counted by the handler. -/
def pageMarker : List Char := "/Type /Page".toList

/-- `src/lambda0.py` `lambda_handler`, lines 10-63.  Checks, in order:
missing/falsy fields (400), non-`.pdf` extension (400), more than 3 page
markers (400); otherwise stores the object with content type
`application/pdf` and the job id in its metadata (200).  A missing
`file_name`/`file_content` key raises `KeyError`, caught by the generic
handler (500). -/
def lambda_handler (event : UploadEvent) : UploadResponse :=
  match event.file_name, event.file_content with
  | some file_name, some file_content =>
    let job_id := event.job_id
    if file_name = "" || file_content = "" || optFalsy job_id then
      ⟨400, "Missing job_id, file_name or file_content", Option.none⟩
    else if !(PyStr.endsWith (PyStr.lower file_name) ".pdf") then
      ⟨400, "Invalid file type. Only PDF files are allowed.", Option.none⟩
    else if countOccs pageMarker file_content.toList > 3 then
      ⟨400, "Too many pages. Maximum 3 pages allowed.", Option.none⟩
    else
      ⟨200,
       "File " ++ file_name ++ " uploaded successfully. Job ID: " ++ job_id.getD "",
       some ⟨file_name, file_content, "application/pdf", job_id.getD ""⟩⟩
  | _, _ => ⟨500, "KeyError", Option.none⟩

/-- Acceptance condition as the specification words it: a `.pdf` file name,
non-empty content and job id, and at most 3 raw page markers.  Stated
separately from `lambda_handler` so the two can be compared. -/
def acceptSpec (e : UploadEvent) : Bool :=
  match e.file_name, e.file_content, e.job_id with
  | some fn, some fc, some j =>
    PyStr.endsWith (PyStr.lower fn) ".pdf" && fc ≠ "" && j ≠ "" &&
      countOccs pageMarker fc.toList ≤ 3
  | _, _, _ => false

end Lambda0

namespace Lambda1

/-- Reason codes treated as retryable by `_is_retryable_client_error`
(`src/lambda1.py` lines 282-310). -/
def retryable_codes : List String :=
  ["throttlingexception", "toomanyrequestsexception", "serviceunavailableexception",
   "internalfailure", "internalservererror", "requesttimeout", "limitexceededexception"]

/-- The observable part of a botocore `ClientError` used by the classifier:
reason code, message, and the HTTP status of the response metadata. -/
structure ClientErrInfo where
  code : String
  message : String
  status : Option Nat
deriving Repr, DecidableEq

/-- Python's substring test `needle in hay`. -/
def containsSub (needle : List Char) : List Char → Bool
  | [] => needle.isEmpty
  | c :: rest => needle.isPrefixOf (c :: rest) || containsSub needle rest

/-- `src/lambda1.py` `_is_retryable_client_error`: retryable reason code,
"too many requests" in the message, or 429/5xx status. -/
def is_retryable_client_error (e : ClientErrInfo) : Bool :=
  retryable_codes.contains (PyStr.lower e.code)
  || containsSub "too many requests".toList (PyStr.lower e.message).toList
  || (match e.status with
      | some st => st == 429 || (decide (500 ≤ st) && decide (st < 600))
      | Option.none => false)

/-- One outcome of calling `bedrock_rt.invoke_model`: success, a low-level
connection/timeout error, an AWS service `ClientError`, or any other
exception. -/
inductive Attempt where
  | ok (resp : String)
  | connErr (msg : String)
  | clientErr (e : ClientErrInfo)
  | otherErr (msg : String)
deriving Repr, DecidableEq

/-- The cause recorded in `last_err` by the retry loop. -/
inductive ErrCause where
  | conn (msg : String)
  | client (e : ClientErrInfo)
  | other (msg : String)
deriving Repr, DecidableEq

/-- The result of `_bedrock_invoke`: a parsed response, an immediately
re-raised non-retryable `ClientError`, or the synthesized `RuntimeError`
wrapping the last observed cause after exhausting all retries. -/
inductive InvokeResult where
  | success (resp : String)
  | raised (e : ClientErrInfo)
  | exhausted (last : Option ErrCause)
deriving Repr, DecidableEq

/-- Whether an attempt outcome is a failure the loop retries:
connection/timeout errors, retryable `ClientError`s, and unclassified
exceptions. -/
def retryableFail : Attempt → Bool
  | .connErr _ => true
  | .otherErr _ => true
  | .clientErr e => is_retryable_client_error e
  | .ok _ => false

/-- The `last_err` value recorded for a failing attempt. -/
def errCauseOf : Attempt → Option ErrCause
  | .connErr m => some (.conn m)
  | .clientErr e => some (.client e)
  | .otherErr m => some (.other m)
  | .ok _ => none

/-- The retry loop of `_bedrock_invoke` (`src/lambda1.py` lines 324-373),
with the environment's attempt outcomes supplied as a function of the
attempt number.  `fuel` is the number of loop iterations remaining. -/
def invokeGo (attempts : Nat → Attempt) : Nat → Nat → Option ErrCause → InvokeResult
  | 0, _, last => .exhausted last
  | fuel + 1, attempt, _ =>
    match attempts attempt with
    | .ok r => .success r
    | .connErr m => invokeGo attempts fuel (attempt + 1) (some (.conn m))
    | .clientErr e =>
      if is_retryable_client_error e then
        invokeGo attempts fuel (attempt + 1) (some (.client e))
      else
        .raised e
    | .otherErr m => invokeGo attempts fuel (attempt + 1) (some (.other m))

/-- `src/lambda1.py` `_bedrock_invoke`: `for attempt in range(1, MAX_RETRIES + 1)`
around a single model call, starting with `last_err = None`. -/
def bedrock_invoke (attempts : Nat → Attempt) (maxRetries : Nat) : InvokeResult :=
  invokeGo attempts maxRetries 1 Option.none

/-- `src/lambda1.py` `_sleep_with_backoff`: the full delay slept before the
next retry, given the jitter sample drawn by `random.uniform(0, RETRY_JITTER_MAX)`. -/
def backoff_delay (base : ℚ) (attempt : Nat) (jitter : ℚ) : ℚ :=
  base * 2 ^ (attempt - 1) + jitter

/-- The deterministic component of the backoff delay. -/
def backoff_det (base : ℚ) (attempt : Nat) : ℚ :=
  base * 2 ^ (attempt - 1)

/-- The prefix of `cs` ending at the last `'\x7d'` in `cs`, if any — the text
matched at a fixed start position by the greedy regex `\{.*\}` with `DOTALL`. -/
def takeToLastClose (cs : List Char) : Option (List Char) :=
  let r := cs.reverse.dropWhile (fun c => c ≠ '}')
  if r.isEmpty then Option.none else some r.reverse

/-- `_json_outer_re.search`: the regex engine tries start positions left to
right; a match starts at a `'\x7b'` and extends greedily to the last `'\x7d'`. -/
def searchOuter : List Char → Option (List Char)
  | [] => Option.none
  | c :: rest =>
    if c = '{' then
      match takeToLastClose (c :: rest) with
      | some m => some m
      | Option.none => searchOuter rest
    else
      searchOuter rest

/-- `src/lambda1.py` `_extract_json_from_text`, lines 160-174: raise on empty
text, raise when the regex finds no JSON object, otherwise hand the matched
substring to `json.loads`.  The candidate handed to the parser is returned. -/
def extract_json_from_text (text : String) : Except String String :=
  if text = "" then
    .error "Model returned empty text."
  else
    match searchOuter text.toList with
    | Option.none => .error "Model did not return JSON."
    | some m => .ok (String.mk m)

/-- A Python value reaching `_to_number`: `None`, `int`, `float`, `str`, or
anything else. -/
inductive PyNum where
  | none
  | int (i : Int)
  | float (q : ℚ)
  | str (s : String)
  | other
deriving Repr, DecidableEq

/-- Greedy match of the regex `[-+]?\d*\.?\d+` anchored at the head of `cs`
(with the backtracking a Python regex performs when `\d+` would be starved). -/
def matchNumAt (cs : List Char) : Option (List Char) :=
  let sgnRest : List Char × List Char :=
    match cs with
    | c :: rest => if c = '-' ∨ c = '+' then ([c], rest) else ([], cs)
    | [] => ([], [])
  let sgn := sgnRest.1
  let d := sgnRest.2.takeWhile Char.isDigit
  let rest2 := sgnRest.2.drop d.length
  match rest2 with
  | '.' :: rest3 =>
    let e := rest3.takeWhile Char.isDigit
    if e ≠ [] then some (sgn ++ d ++ '.' :: e)
    else if d ≠ [] then some (sgn ++ d)
    else Option.none
  | _ => if d ≠ [] then some (sgn ++ d) else Option.none

/-- `_money_re.search`: leftmost match of `[-+]?\d*\.?\d+`. -/
def searchNum : List Char → Option (List Char)
  | [] => Option.none
  | c :: rest =>
    match matchNumAt (c :: rest) with
    | some m => some m
    | Option.none => searchNum rest

/-- Value of a list of decimal digits. -/
def natOfDigits (ds : List Char) : Nat :=
  ds.foldl (fun acc c => 10 * acc + (c.toNat - '0'.toNat)) 0

/-- Exact numeric value of a lexeme matched by `matchNumAt`
(what Python's `float(...)` computes, modelled exactly over `ℚ`). -/
def numValue (m : List Char) : ℚ :=
  let negRest : Bool × List Char :=
    match m with
    | '-' :: r => (true, r)
    | '+' :: r => (false, r)
    | _ => (false, m)
  let d := negRest.2.takeWhile Char.isDigit
  let rest2 := negRest.2.drop d.length
  let mag : ℚ :=
    match rest2 with
    | '.' :: e => ((natOfDigits d * 10 ^ e.length + natOfDigits e : ℕ) : ℚ) / (10 ^ e.length : ℕ)
    | _ => (natOfDigits d : ℚ)
  if negRest.1 then -mag else mag

/-- `src/lambda1.py` `_to_number`, lines 177-194: `None` stays `None`,
`int`/`float` pass through, strings are searched for the first numeric
substring after removing commas, everything else becomes `None`. -/
def to_number : PyNum → Option ℚ
  | .none => Option.none
  | .int i => some (i : ℚ)
  | .float q => some q
  | .str s =>
    match searchNum (s.toList.filter (fun c => c ≠ ',')) with
    | some m => some (numValue m)
    | Option.none => Option.none
  | .other => Option.none

/-- A Python value reaching `_clean_for_ddb` / `_to_decimal`: exactly the
shapes the claims range over — `None`, `str`, non-boolean `int`/`float`,
`Decimal`, `list`, `dict`.  `Decimal` is modelled exactly as `ℚ`. -/
inductive DVal where
  | none
  | str (s : String)
  | int (i : Int)
  | float (q : ℚ)
  | dec (d : ℚ)
  | list (xs : List DVal)
  | dict (kvs : List (String × DVal))

/-- `src/lambda1.py` `_to_decimal` on the numeric cases `_clean_for_ddb`
feeds it: `Decimal(str(n))` is exact for our exact model of the value. -/
def to_decimal_num (v : DVal) : DVal :=
  match v with
  | .int i => .dec (i : ℚ)
  | .float q => .dec q
  | v => v

/-- The values `_clean_for_ddb` drops from containers: `None` and `""`
(Python `x is None or x == ""`; `x == ""` is `False` for non-strings). -/
def isDropped : DVal → Bool
  | .none => true
  | .str s => s = ""
  | _ => false

mutual

/-- `src/lambda1.py` `_clean_for_ddb`, lines 231-264: recursively drop `None`
and empty strings from dicts and lists, convert `int`/`float` to `Decimal`,
pass strings, `Decimal`s and anything else through. -/
def clean_for_ddb : DVal → DVal
  | .dict kvs => .dict (cleanDict kvs)
  | .list xs => .list (cleanList xs)
  | .int i => to_decimal_num (.int i)
  | .float q => to_decimal_num (.float q)
  | .str s => .str s
  | .dec d => .dec d
  | .none => .none

/-- The list comprehension in `_clean_for_ddb`'s list branch. -/
def cleanList : List DVal → List DVal
  | [] => []
  | x :: xs =>
    let c := clean_for_ddb x
    if isDropped c then cleanList xs else c :: cleanList xs

/-- The key loop in `_clean_for_ddb`'s dict branch. -/
def cleanDict : List (String × DVal) → List (String × DVal)
  | [] => []
  | (k, v) :: rest =>
    let c := clean_for_ddb v
    if isDropped c then cleanDict rest else (k, c) :: cleanDict rest

end

mutual

/-- Spec-side well-formedness of a sanitized value: no `int`/`float` leaf
survives (numerics are `Decimal`), and inside every list and dict no child
is `None` or `""` and every child is itself well-formed.  The top-level
value itself is not constrained to be non-`None`/non-empty. -/
def cleanedOk : DVal → Bool
  | .int _ => false
  | .float _ => false
  | .list xs => cleanedOkList xs
  | .dict kvs => cleanedOkDict kvs
  | _ => true

/-- Well-formedness of sanitized list elements. -/
def cleanedOkList : List DVal → Bool
  | [] => true
  | x :: xs => !(isDropped x) && cleanedOk x && cleanedOkList xs

/-- Well-formedness of sanitized dict values. -/
def cleanedOkDict : List (String × DVal) → Bool
  | [] => true
  | (_, v) :: rest => !(isDropped v) && cleanedOk v && cleanedOkDict rest

end

/-- One extracted line item as handed to the persistence loop
(`src/lambda1.py` lines 677-695); the monetary field is already decimalized. -/
structure ExtractedItem where
  code : Option String
  description : Option String
  bill : Option ℚ
deriving Repr, DecidableEq

/-- A persisted line-item row keyed by (`code`, `table_id`). -/
structure BillItemRow where
  code : String
  table_id : String
  description : Option String
  bill : Option ℚ
  created_at : String
  page_no : Nat
deriving Repr, DecidableEq

/-- The key-guarantee logic of the persistence loop: `if not code_val or
code_val == "": code_val = f"NO_CODE_{uuid.uuid4()}"`. -/
def bill_item_code (codeVal : Option String) (uuidStr : String) : String :=
  match codeVal with
  | Option.none => "NO_CODE_" ++ uuidStr
  | some c => if c = "" then "NO_CODE_" ++ uuidStr else c

/-- The `item_row` dict written by `batch.put_item` for one extracted item. -/
def bill_item_row (it : ExtractedItem) (tableId createdAt uuidStr : String) : BillItemRow :=
  { code := bill_item_code it.code uuidStr
    table_id := tableId
    description := it.description
    bill := it.bill
    created_at := createdAt
    page_no := 1 }

end Lambda1

namespace Lambda2

/-- A temporary ICD row fetched by `get_icd_entries_for_table_id`
(`src/lambda2.py` lines 124-163): a code and an optional description. -/
structure IcdEntry where
  code : String
  description : Option String
deriving Repr, DecidableEq

/-- A reference row returned by `get_reference_icd_code` /
`get_reference_cpt_code`; the description defaults to `""`. -/
structure RefEntry where
  code : String
  description : String
deriving Repr, DecidableEq

/-- A CPT row fetched by `get_cpt_codes_for_table_id`; the description
defaults to `""`. -/
structure CptEntry where
  code : String
  description : String
deriving Repr, DecidableEq

/-- An `icd_for_justification` entry: a code with its chosen description. -/
structure JustEntry where
  code : String
  description : String
deriving Repr, DecidableEq

/-- An `icd_items_for_validation` entry tracking one queued comparison pair. -/
structure IcdItemV where
  code : String
  icd_desc : String
  ref_desc : String
deriving Repr, DecidableEq

/-- A `cpt_items_for_validation` entry tracking one queued comparison pair. -/
structure CptItemV where
  code : String
  description : String
  ref_description : String
deriving Repr, DecidableEq

/-- Result of `check_cpt_justification_with_bedrock`: `(True, None)`,
`(False, text)`, or `(None, err)` when the model call fails. -/
inductive JustOutcome where
  | ok
  | notJustified (msg : String)
  | failed (msg : String)
deriving Repr, DecidableEq

/-- The external world of the validation handler: the two temporary-table
scans, the two reference lookups, the batched description comparisons
(`batch_compare_with_bedrock`, already normalized to `True`/`False`/`None`
per pair — `None` for an unparseable token, and an all-`None` list when the
whole call fails), and the justification call. -/
structure ValidationEnv where
  icdEntries : List IcdEntry
  cptCodes : List CptEntry
  refIcd : String → Option RefEntry
  refCpt : String → Option RefEntry
  icdCompare : List (String × String) → List (Option Bool)
  cptCompare : List (String × String) → List (Option Bool)
  justify : List CptEntry → List JustEntry → JustOutcome

/-- The `validation_result` dict aggregated by `lambda_handler`. -/
structure ValidationResult where
  table_id : Option String
  all_valid : Bool
  issues : List String
  cpt_icd_issue : Option String
deriving Repr, DecidableEq

/-- Python truthiness of the optional ICD description (`if icd_desc:`). -/
def descTruthy : Option String → Bool
  | Option.none => false
  | some s => s ≠ ""

/-- Output of the per-entry ICD loop (`src/lambda2.py` lines 385-423). -/
structure IcdPhaseOut where
  issues : List String
  forJust : List JustEntry
  items : List IcdItemV
  pairs : List (String × String)
deriving Repr, DecidableEq

/-- The per-entry ICD loop: reference lookup, then routing each entry to the
comparison queue, the justification list, or the issue log. -/
def icdPhase (refIcd : String → Option RefEntry) : List IcdEntry → IcdPhaseOut
  | [] => ⟨[], [], [], []⟩
  | e :: rest =>
    let r := icdPhase refIcd rest
    match refIcd e.code with
    | some ref =>
      match e.description with
      | some d =>
        if d ≠ "" then
          ⟨r.issues, r.forJust, ⟨e.code, d, ref.description⟩ :: r.items,
           (d, ref.description) :: r.pairs⟩
        else
          ⟨r.issues, ⟨e.code, ref.description⟩ :: r.forJust, r.items, r.pairs⟩
      | Option.none =>
        ⟨r.issues, ⟨e.code, ref.description⟩ :: r.forJust, r.items, r.pairs⟩
    | Option.none =>
      match e.description with
      | some d =>
        if d ≠ "" then
          ⟨("ICD " ++ e.code ++ " not found in reference; using temporary description.")
             :: r.issues,
           ⟨e.code, d⟩ :: r.forJust, r.items, r.pairs⟩
        else
          ⟨("ICD " ++ e.code ++ " missing description and not in reference; skipping.")
             :: r.issues,
           r.forJust, r.items, r.pairs⟩
      | Option.none =>
        ⟨("ICD " ++ e.code ++ " missing description and not in reference; skipping.")
           :: r.issues,
         r.forJust, r.items, r.pairs⟩

/-- Output of the ICD result loop (`src/lambda2.py` lines 428-440). -/
structure IcdZipOut where
  issues : List String
  forJust : List JustEntry
  mismatch : Bool
deriving Repr, DecidableEq

/-- The `zip(icd_items_for_validation, results)` loop: an explicit `False`
appends a mismatch issue and flips the verdict; `True` and `None` do not;
every zipped pair contributes its reference description to
`icd_for_justification`. -/
def icdZip : List IcdItemV → List (Option Bool) → IcdZipOut
  | it :: its, r :: rs =>
    let rest := icdZip its rs
    match r with
    | some false =>
      ⟨("ICD " ++ it.code ++ " description mismatch.") :: rest.issues,
       ⟨it.code, it.ref_desc⟩ :: rest.forJust, true⟩
    | _ => ⟨rest.issues, ⟨it.code, it.ref_desc⟩ :: rest.forJust, rest.mismatch⟩
  | _, _ => ⟨[], [], false⟩

/-- Output of the CPT reference loop (`src/lambda2.py` lines 470-486). -/
structure CptPhaseOut where
  issues : List String
  items : List CptItemV
  pairs : List (String × String)
deriving Repr, DecidableEq

/-- The CPT reference loop: a code absent from the reference table is an
issue and is excluded from comparison; otherwise the pair is queued. -/
def cptPhase (refCpt : String → Option RefEntry) : List CptEntry → CptPhaseOut
  | [] => ⟨[], [], []⟩
  | c :: rest =>
    let r := cptPhase refCpt rest
    match refCpt c.code with
    | Option.none =>
      ⟨("CPT " ++ c.code ++ " not found in CPT reference table.") :: r.issues,
       r.items, r.pairs⟩
    | some ref =>
      ⟨r.issues, ⟨c.code, c.description, ref.description⟩ :: r.items,
       (c.description, ref.description) :: r.pairs⟩

/-- The `zip(cpt_items_for_validation, results)` loop: only an explicit
`False` appends a mismatch issue and flips the verdict. -/
def cptZip : List CptItemV → List (Option Bool) → List String × Bool
  | it :: its, r :: rs =>
    let rest := cptZip its rs
    match r with
    | some false => (("CPT " ++ it.code ++ " description mismatch.") :: rest.1, true)
    | _ => rest
  | _, _ => ([], false)

/-- `src/lambda2.py` `lambda_handler`, lines 341-507 (the exception path is
not modelled): ICD validation, CPT/ICD justification, CPT reference
validation, and aggregation of `all_valid` with the ordered issue log. -/
def lambda_handler (env : ValidationEnv) (tableId : Option String) : ValidationResult :=
  match tableId with
  | Option.none => ⟨Option.none, false, ["Missing table_id in event."], Option.none⟩
  | some tid =>
    let icdOut : IcdPhaseOut :=
      if env.icdEntries.isEmpty then
        ⟨["No ICD entries found for table_id " ++ tid], [], [], []⟩
      else
        icdPhase env.refIcd env.icdEntries
    let zipIcd : IcdZipOut :=
      if icdOut.pairs.isEmpty then ⟨[], [], false⟩
      else icdZip icdOut.items (env.icdCompare icdOut.pairs)
    let icdForJust := icdOut.forJust ++ zipIcd.forJust
    let issues1 := icdOut.issues ++ zipIcd.issues
    let av1 := !zipIcd.mismatch
    let justOut : List String × Option String × Bool :=
      if env.cptCodes.isEmpty then
        (["No CPT codes found."], Option.none, false)
      else if !icdForJust.isEmpty then
        match env.justify env.cptCodes icdForJust with
        | .ok => ([], Option.none, av1)
        | .notJustified m => ([m], some m, false)
        | .failed _ => (["Bedrock error during CPT justification."], Option.none, av1)
      else
        (["No ICD codes available to justify CPTs."], Option.none, av1)
    let cptOut := cptPhase env.refCpt env.cptCodes
    let zipCpt : List String × Bool :=
      if cptOut.pairs.isEmpty then ([], false)
      else cptZip cptOut.items (env.cptCompare cptOut.pairs)
    ⟨some tid, justOut.2.2 && !zipCpt.2,
     issues1 ++ justOut.1 ++ cptOut.issues ++ zipCpt.1, justOut.2.1⟩

/-- Concrete environment realizing the claim's own test scenario: one line
item whose code has no reference entry, and zero diagnoses. -/
def envC1 : ValidationEnv :=
  { icdEntries := []
    cptCodes := [⟨"99213", ""⟩]
    refIcd := fun _ => Option.none
    refCpt := fun _ => Option.none
    icdCompare := fun _ => []
    cptCompare := fun _ => []
    justify := fun _ _ => .ok }

/-- Concrete environment with one queued diagnosis pair whose batched
comparison token is unparseable (`None`), everything else clean. -/
def envC2 : ValidationEnv :=
  { icdEntries := [⟨"A01", some "flu"⟩]
    cptCodes := [⟨"99213", "office visit"⟩]
    refIcd := fun c => if c = "A01" then some ⟨"A01", "influenza"⟩ else Option.none
    refCpt := fun c => if c = "99213" then some ⟨"99213", "office visit"⟩ else Option.none
    icdCompare := fun _ => [Option.none]
    cptCompare := fun _ => [some true]
    justify := fun _ _ => .ok }

end Lambda2

namespace Lambda3

/-- The inner scan of `_balanced_slice` (`src/lambda3/parsingPolicies.py`
lines 136-160), carrying depth, in-string and escape state; `acc` is the
slice collected so far (the Python code returns `s[start:i+1]`). -/
def balancedLoop (openCh closeCh : Char) :
    List Char → Nat → Bool → Bool → List Char → Option (List Char)
  | [], _, _, _, _ => Option.none
  | ch :: rest, depth, inStr, esc, acc =>
    if inStr then
      if esc then balancedLoop openCh closeCh rest depth true false (acc ++ [ch])
      else if ch = '\\' then balancedLoop openCh closeCh rest depth true true (acc ++ [ch])
      else if ch = '"' then balancedLoop openCh closeCh rest depth false false (acc ++ [ch])
      else balancedLoop openCh closeCh rest depth true false (acc ++ [ch])
    else
      if ch = '"' then balancedLoop openCh closeCh rest depth true esc (acc ++ [ch])
      else if ch = openCh then balancedLoop openCh closeCh rest (depth + 1) false esc (acc ++ [ch])
      else if ch = closeCh then
        if depth - 1 = 0 then some (acc ++ [ch])
        else balancedLoop openCh closeCh rest (depth - 1) false esc (acc ++ [ch])
      else balancedLoop openCh closeCh rest depth false esc (acc ++ [ch])

/-- `src/lambda3/parsingPolicies.py` `_balanced_slice`: the first balanced
`openCh ... closeCh` slice of `s`, string-literal aware. -/
def balanced_slice (s : List Char) (openCh closeCh : Char) : Option (List Char) :=
  let t := s.dropWhile (fun c => c ≠ openCh)
  if t.isEmpty then Option.none else balancedLoop openCh closeCh t 0 false false []

/-- The `validation` payload inspected by `handler`'s direct-invocation mode
(`src/lambda3/index.py` lines 459-523); `issues` absent is modelled as `[]`
(the code applies `or []`). -/
structure ValidationIn where
  all_valid : Option Bool
  issues : List String
  cpt_icd_justification_issue : Option String
deriving Repr, DecidableEq

/-- The `reason_parts` list built for an invalid bill: the justification
issue when truthy, then the `"; "`-joined issue list when non-empty. -/
def reason_parts (v : ValidationIn) : List String :=
  (match v.cpt_icd_justification_issue with
   | some m => if m = "" then [] else [m]
   | Option.none => []) ++
  (if v.issues.isEmpty then [] else [String.intercalate "; " v.issues])

/-- `reason = " ".join(reason_parts) or "See validation details."`. -/
def invalid_reason (v : ValidationIn) : String :=
  let r := String.intercalate " " (reason_parts v)
  if r = "" then "See validation details." else r

/-- The `message` carried by the synthesized invalid-bill comparison. -/
def invalid_message (v : ValidationIn) : String :=
  "The bill is invalid because: " ++ invalid_reason v

/-- Observable side effects of the reconciliation handler: writing a
comparison object to the result store, deleting one CorrelationId-scoped
table, or invoking the reconciliation model. -/
inductive L3Effect where
  | putObject (status : String) (message : String)
  | cleanupTable (table : String)
  | modelInvoke
deriving Repr, DecidableEq

/-- The dict returned by the direct-invocation mode. -/
structure L3Result where
  success : Bool
  reason : Option String
deriving Repr, DecidableEq

/-- `cleanup_all_data_for_table_id` (`src/lambda3/fetchPatientData.py`
lines 393-420): deletes the patient, provider, bill-summary, line-item and
diagnosis rows for the CorrelationId, in that order. -/
def cleanup_all_effects : List L3Effect :=
  [.cleanupTable "patient_info", .cleanupTable "provider_info",
   .cleanupTable "medical_bill_info", .cleanupTable "cpt_codes",
   .cleanupTable "icd_codes"]

/-- The direct-invocation mode of `handler` (`src/lambda3/index.py` lines
454-572).  When the incoming validation reports `all_valid == False` the
handler synthesizes the invalid-bill comparison, writes it, runs cleanup and
returns; every other case (validation absent, `all_valid` `True` or absent)
proceeds with the normal reconciliation path, abstracted here as the
`proceed` parameter (it builds bill data, fetches the policy and invokes the
reconciliation model). -/
def handler_direct (proceed : L3Result × List L3Effect)
    (validation : Option ValidationIn) (_tableId : String) : L3Result × List L3Effect :=
  match validation with
  | some v =>
    if v.all_valid = some false then
      (⟨false, some (invalid_message v)⟩,
       L3Effect.putObject "invalid_bill" (invalid_message v) :: cleanup_all_effects)
    else
      proceed
  | Option.none => proceed

end Lambda3

/-- Attempt sequence with one transient failure followed by a fatal
service error, used to exercise the retry loop. -/
def attemptsFatal : Nat → Lambda1.Attempt := fun i =>
  if i = 1 then .connErr "timeout" else .clientErr ⟨"validationexception", "bad request", some 400⟩

/-- The fatal error raised by `attemptsFatal` from attempt 2 on. -/
def fatalErr : Lambda1.ClientErrInfo := ⟨"validationexception", "bad request", some 400⟩

/-- Attempt sequence that always fails with a connection reset. -/
def attemptsReset : Nat → Lambda1.Attempt := fun _ => .connErr "reset"

/-!  Theorems.  -/

theorem no_code_ne_empty (u : String) : ("NO_CODE_" ++ u : String) ≠ "" := by
  intro h
  have hlen := congrArg String.length h
  rw [String.length_append] at hlen
  simp at hlen
  exact absurd hlen.1 (by decide)

/-- Claim C5: the backoff delay before the next retry is
`base * 2^(attempt-1)` plus the jitter sample drawn uniformly from
`[0, jitterMax)`, and the deterministic component is monotonically
non-decreasing in the attempt number (for the non-negative configured base). -/
theorem c5_backoff_monotone (base jitter jmax : ℚ) (n m : Nat)
    (hbase : 0 ≤ base) (_hj : 0 ≤ jitter) (_hjm : jitter < jmax) (hnm : n ≤ m) :
    Lambda1.backoff_delay base n jitter = Lambda1.backoff_det base n + jitter
    ∧ Lambda1.backoff_det base n ≤ Lambda1.backoff_det base m := by
  refine ⟨rfl, ?_⟩
  unfold Lambda1.backoff_det
  have h2 : (2 : ℚ) ^ (n - 1) ≤ 2 ^ (m - 1) :=
    pow_le_pow_right₀ (by norm_num) (by omega)
  exact mul_le_mul_of_nonneg_left h2 hbase

/-- Witness for C5 at the configured base 0.8 and jitter bound 0.6. -/
theorem c5_backoff_monotone_witness :
    Lambda1.backoff_delay (4/5) 1 (1/2) = Lambda1.backoff_det (4/5) 1 + 1/2
    ∧ Lambda1.backoff_det (4/5) 1 ≤ Lambda1.backoff_det (4/5) 3 :=
  c5_backoff_monotone (4/5) (1/2) (3/5) 1 3 (by norm_num) (by norm_num) (by norm_num)
    (by norm_num)

/-- Claim C9: every persisted line-item row has a non-empty code; a missing
or empty extracted code is replaced by the `NO_CODE_`-prefixed placeholder,
a present non-empty code is kept, and the row stays addressable by
(`code`, `table_id`). -/
theorem c9_line_item_code (it : Lambda1.ExtractedItem) (tableId createdAt uuidStr : String) :
    (Lambda1.bill_item_row it tableId createdAt uuidStr).code ≠ ""
    ∧ ((it.code = Option.none ∨ it.code = some "") →
        (Lambda1.bill_item_row it tableId createdAt uuidStr).code = "NO_CODE_" ++ uuidStr)
    ∧ (∀ c, it.code = some c → c ≠ "" →
        (Lambda1.bill_item_row it tableId createdAt uuidStr).code = c)
    ∧ (Lambda1.bill_item_row it tableId createdAt uuidStr).table_id = tableId := by
  refine ⟨?_, ?_, ?_, rfl⟩
  · show Lambda1.bill_item_code it.code uuidStr ≠ ""
    rcases it.code with _ | c
    · exact no_code_ne_empty uuidStr
    · show (if c = "" then "NO_CODE_" ++ uuidStr else c) ≠ ""
      by_cases hc : c = ""
      · rw [if_pos hc]
        exact no_code_ne_empty uuidStr
      · rw [if_neg hc]
        exact hc
  · intro h
    show Lambda1.bill_item_code it.code uuidStr = _
    rcases h with h | h <;> simp [h, Lambda1.bill_item_code]
  · intro c hc hne
    show Lambda1.bill_item_code it.code uuidStr = _
    simp [hc, Lambda1.bill_item_code, hne]

/-- Witness for C9 on a concrete item with an empty code. -/
theorem c9_line_item_code_witness :
    (Lambda1.bill_item_row ⟨some "", some "IV fluids", some 12⟩ "T1" "2024-01-01" "u-1").code
      = "NO_CODE_" ++ "u-1" :=
  (c9_line_item_code ⟨some "", some "IV fluids", some 12⟩ "T1" "2024-01-01" "u-1").2.1
    (Or.inr rfl)

theorem invokeGo_exhaust (attempts : Nat → Lambda1.Attempt) :
    ∀ (f start : Nat) (last : Option Lambda1.ErrCause),
    (∀ i, start ≤ i → i ≤ start + f → Lambda1.retryableFail (attempts i) = true) →
    Lambda1.invokeGo attempts (f + 1) start last
      = .exhausted (Lambda1.errCauseOf (attempts (start + f))) := by
  intro f
  induction f with
  | zero =>
    intro start last hall
    have hs := hall start (le_refl _) (by omega)
    cases ha : attempts start with
    | ok r => rw [ha] at hs; simp [Lambda1.retryableFail] at hs
    | connErr m =>
      simp [Lambda1.invokeGo, ha, Lambda1.errCauseOf]
    | clientErr e =>
      rw [ha] at hs
      simp only [Lambda1.retryableFail] at hs
      simp [Lambda1.invokeGo, ha, hs, Lambda1.errCauseOf]
    | otherErr m =>
      simp [Lambda1.invokeGo, ha, Lambda1.errCauseOf]
  | succ f ih =>
    intro start last hall
    have hs := hall start (le_refl _) (by omega)
    have hrec : ∀ c, Lambda1.invokeGo attempts (f + 1) (start + 1) c
        = .exhausted (Lambda1.errCauseOf (attempts (start + 1 + f))) :=
      fun c => ih (start + 1) c (fun i h1 h2 => hall i (by omega) (by omega))
    have harith : start + 1 + f = start + (f + 1) := by omega
    rw [harith] at hrec
    cases ha : attempts start with
    | ok r => rw [ha] at hs; simp [Lambda1.retryableFail] at hs
    | connErr m =>
      show Lambda1.invokeGo attempts (f + 1 + 1) start last = _
      simp only [Lambda1.invokeGo, ha]
      exact hrec (some (.conn m))
    | clientErr e =>
      rw [ha] at hs
      simp only [Lambda1.retryableFail] at hs
      show Lambda1.invokeGo attempts (f + 1 + 1) start last = _
      simp only [Lambda1.invokeGo, ha, hs, if_true]
      exact hrec (some (.client e))
    | otherErr m =>
      show Lambda1.invokeGo attempts (f + 1 + 1) start last = _
      simp only [Lambda1.invokeGo, ha]
      exact hrec (some (.other m))

theorem invokeGo_fatal (attempts : Nat → Lambda1.Attempt) (e : Lambda1.ClientErrInfo) :
    ∀ (fuel start k : Nat) (last : Option Lambda1.ErrCause),
    start ≤ k → k < start + fuel →
    (∀ i, start ≤ i → i < k → Lambda1.retryableFail (attempts i) = true) →
    attempts k = .clientErr e → Lambda1.is_retryable_client_error e = false →
    Lambda1.invokeGo attempts fuel start last = .raised e := by
  intro fuel
  induction fuel with
  | zero => intro start k last h1 h2; omega
  | succ f ih =>
    intro start k last h1 h2 hpre hk hnr
    by_cases hsk : start = k
    · subst hsk
      show Lambda1.invokeGo attempts (f + 1) start last = _
      simp [Lambda1.invokeGo, hk, hnr]
    · have hs := hpre start (le_refl _) (by omega)
      have hrec : ∀ c, Lambda1.invokeGo attempts f (start + 1) c = .raised e :=
        fun c => ih (start + 1) k c (by omega) (by omega)
          (fun i hi1 hi2 => hpre i (by omega) hi2) hk hnr
      cases ha : attempts start with
      | ok r => rw [ha] at hs; simp [Lambda1.retryableFail] at hs
      | connErr m =>
        show Lambda1.invokeGo attempts (f + 1) start last = _
        simp only [Lambda1.invokeGo, ha]
        exact hrec (some (.conn m))
      | clientErr e2 =>
        rw [ha] at hs
        simp only [Lambda1.retryableFail] at hs
        show Lambda1.invokeGo attempts (f + 1) start last = _
        simp only [Lambda1.invokeGo, ha, hs, if_true]
        exact hrec (some (.client e2))
      | otherErr m =>
        show Lambda1.invokeGo attempts (f + 1) start last = _
        simp only [Lambda1.invokeGo, ha]
        exact hrec (some (.other m))

/-- Claim C4: the retryable model invoker classifies network/timeout and
unclassified errors as retryable; a non-retryable service error observed at
any attempt (after only retryable failures) is propagated immediately; and
when every one of the `MAX_RETRIES` attempts fails retryably, the invoker
raises exactly one synthesized error wrapping the cause observed at the
last attempt. -/
theorem c4_retryable_invoker (attempts : Nat → Lambda1.Attempt) (maxR k : Nat)
    (e : Lambda1.ClientErrInfo) :
    (∀ m, Lambda1.retryableFail (.connErr m) = true
      ∧ Lambda1.retryableFail (.otherErr m) = true)
    ∧ (1 ≤ k → k ≤ maxR →
        (∀ i, 1 ≤ i → i < k → Lambda1.retryableFail (attempts i) = true) →
        attempts k = .clientErr e → Lambda1.is_retryable_client_error e = false →
        Lambda1.bedrock_invoke attempts maxR = .raised e)
    ∧ ((∀ i, 1 ≤ i → i ≤ maxR → Lambda1.retryableFail (attempts i) = true) →
        1 ≤ maxR →
        Lambda1.bedrock_invoke attempts maxR
          = .exhausted (Lambda1.errCauseOf (attempts maxR))) := by
  refine ⟨fun m => ⟨rfl, rfl⟩, ?_, ?_⟩
  · intro h1 h2 hpre hk hnr
    exact invokeGo_fatal attempts e maxR 1 k Option.none h1 (by omega) hpre hk hnr
  · intro hall hmax
    have h := invokeGo_exhaust attempts (maxR - 1) 1 Option.none
      (fun i hi1 hi2 => hall i hi1 (by omega))
    have h1 : maxR - 1 + 1 = maxR := by omega
    have h2 : 1 + (maxR - 1) = maxR := by omega
    rw [h1, h2] at h
    exact h

/-- Witness for C4: a fatal service error at attempt 2 is raised
immediately, and two consecutive connection resets with `MAX_RETRIES = 2`
exhaust the budget and wrap the last reset. -/
theorem c4_retryable_invoker_witness :
    Lambda1.bedrock_invoke attemptsFatal 5 = .raised fatalErr
    ∧ Lambda1.bedrock_invoke attemptsReset 2 = .exhausted (some (.conn "reset")) := by
  constructor
  · refine (c4_retryable_invoker attemptsFatal 5 2 fatalErr).2.1 (by norm_num) (by norm_num)
      ?_ (by decide) (by decide)
    intro i h1 h2
    have hi : i = 1 := by omega
    subst hi
    decide
  · exact (c4_retryable_invoker attemptsReset 2 2 fatalErr).2.2
      (fun i _ _ => rfl) (by norm_num)

/-- Claim C6 counterexample: an upload request lacking the `file_name` key
is rejected (nothing is stored) yet the response is a 500, not a 400-class
error — the `KeyError` falls through to the generic exception handler. -/
theorem c6_counterexample :
    (Lambda0.lambda_handler ⟨Option.none, some "x", some "j"⟩).stored = Option.none
    ∧ ¬(400 ≤ (Lambda0.lambda_handler ⟨Option.none, some "x", some "j"⟩).status
        ∧ (Lambda0.lambda_handler ⟨Option.none, some "x", some "j"⟩).status < 500) := by
  refine ⟨rfl, ?_⟩
  intro h
  exact absurd h.2 (by decide)

/-- Claim C6 (amended): an object is stored iff the request carries a
`.pdf`-named file, non-empty content and job id, and at most 3 page
markers; every accepted upload is a 200 whose stored object has content
type `application/pdf` and the job id unchanged; every rejected request
stores nothing and returns 400 or 500, and the requests rejected by the
validation checks themselves (both file keys present) return 400, while
requests missing a file key return 500. -/
theorem c6_upload_amended (e : Lambda0.UploadEvent) :
    ((Lambda0.lambda_handler e).stored.isSome ↔ Lambda0.acceptSpec e = true)
    ∧ (∀ obj, (Lambda0.lambda_handler e).stored = some obj →
        obj.contentType = "application/pdf" ∧ e.job_id = some obj.jobId
          ∧ (Lambda0.lambda_handler e).status = 200)
    ∧ ((Lambda0.lambda_handler e).stored = Option.none →
        (Lambda0.lambda_handler e).status = 400 ∨ (Lambda0.lambda_handler e).status = 500)
    ∧ (∀ fn fc, e.file_name = some fn → e.file_content = some fc →
        (Lambda0.lambda_handler e).stored = Option.none →
        (Lambda0.lambda_handler e).status = 400) := by
  obtain ⟨fn, fc, j⟩ := e
  cases fn with
  | none =>
    refine ⟨by simp [Lambda0.lambda_handler, Lambda0.acceptSpec], ?_, ?_, ?_⟩
    · intro obj hobj
      simp [Lambda0.lambda_handler] at hobj
    · intro _
      right
      rfl
    · intro fn fc h
      simp at h
  | some fn =>
    cases fc with
    | none =>
      refine ⟨by simp [Lambda0.lambda_handler, Lambda0.acceptSpec], ?_, ?_, ?_⟩
      · intro obj hobj
        simp [Lambda0.lambda_handler] at hobj
      · intro _
        right
        rfl
      · intro fn2 fc2 _ h
        simp at h
    | some fc =>
      simp only [Lambda0.lambda_handler, Lambda0.acceptSpec]
      split_ifs with h1 h2 h3
      · -- falsy field: rejected with 400
        refine ⟨?_, by intro obj hobj; simp at hobj, fun _ => Or.inl rfl, fun _ _ _ _ _ => rfl⟩
        simp only [Option.isSome_none, Bool.false_eq_true, false_iff]
        rcases Bool.or_eq_true_iff.mp h1 with h | hj
        · rcases Bool.or_eq_true_iff.mp h with hfn | hfc
          · have : fn = "" := by simpa using hfn
            subst this
            cases j <;> simp [Lambda0.optFalsy, PyStr.lower, PyStr.endsWith]
          · have : fc = "" := by simpa using hfc
            subst this
            cases j <;> simp
        · cases j with
          | none => simp
          | some jv =>
            have : jv = "" := by simpa [Lambda0.optFalsy] using hj
            subst this
            simp
      · -- not a .pdf name: rejected with 400
        refine ⟨?_, by intro obj hobj; simp at hobj, fun _ => Or.inl rfl, fun _ _ _ _ _ => rfl⟩
        simp only [Option.isSome_none, Bool.false_eq_true, false_iff]
        cases j <;> simp_all
      · -- too many page markers: rejected with 400
        refine ⟨?_, by intro obj hobj; simp at hobj, fun _ => Or.inl rfl, fun _ _ _ _ _ => rfl⟩
        simp only [Option.isSome_none, Bool.false_eq_true, false_iff]
        cases j with
        | none => simp
        | some jv =>
          simp only [Bool.and_eq_true, decide_eq_true_eq]
          rintro ⟨-, hle⟩
          omega
      · -- accepted: stored with 200
        refine ⟨?_, ?_, by intro h; simp at h, fun _ _ _ _ h => absurd h (by simp)⟩
        · simp only [Option.isSome_some, true_iff]
          simp only [Bool.or_eq_true, not_or, decide_eq_true_eq] at h1
          obtain ⟨⟨hfn, hfc⟩, hj⟩ := h1
          have hx : PyStr.endsWith (PyStr.lower fn) ".pdf" = true := by
            simpa using h2
          have hcnt : Lambda0.countOccs Lambda0.pageMarker fc.toList ≤ 3 := by omega
          cases j with
          | none => exact absurd rfl hj
          | some jv =>
            have hjv : jv ≠ "" := by simpa [Lambda0.optFalsy] using hj
            simp [hx, hfc, hjv]
            simpa [String.toList] using hcnt
        · intro obj hobj
          simp only [Option.some_inj] at hobj
          subst hobj
          cases j with
          | none => simp [Lambda0.optFalsy] at h1
          | some jv => exact ⟨rfl, rfl, rfl⟩

/-- Witness for C6: a concrete accepted upload is stored with PDF content
type, the job id unchanged, and status 200. -/
theorem c6_upload_amended_witness :
    (Lambda0.lambda_handler ⟨some "bill.PDF", some "body /Type /Page x", some "job-7"⟩).stored
        = some ⟨"bill.PDF", "body /Type /Page x", "application/pdf", "job-7"⟩
    ∧ (Lambda0.lambda_handler ⟨some "bill.PDF", some "body /Type /Page x", some "job-7"⟩).status
        = 200 := by
  have hst : (Lambda0.lambda_handler
      ⟨some "bill.PDF", some "body /Type /Page x", some "job-7"⟩).stored
      = some ⟨"bill.PDF", "body /Type /Page x", "application/pdf", "job-7"⟩ := by decide
  have h := (c6_upload_amended ⟨some "bill.PDF", some "body /Type /Page x", some "job-7"⟩).2.1
    ⟨"bill.PDF", "body /Type /Page x", "application/pdf", "job-7"⟩ hst
  exact ⟨hst, h.2.2⟩

theorem takeToLastClose_eq_none_iff (cs : List Char) :
    Lambda1.takeToLastClose cs = Option.none ↔ '}' ∉ cs := by
  have hiff : cs.reverse.dropWhile (fun c => c ≠ '}') = [] ↔ '}' ∉ cs := by
    rw [List.dropWhile_eq_nil_iff]
    constructor
    · intro hall hmem
      have := hall '}' (List.mem_reverse.mpr hmem)
      simp at this
    · intro hmem x hx
      simp only [decide_eq_true_eq]
      intro hxe
      exact hmem (hxe ▸ List.mem_reverse.mp hx)
  rcases hE : cs.reverse.dropWhile (fun c => c ≠ '}') with _ | ⟨a, as⟩
  · simp [Lambda1.takeToLastClose, hE, hiff.mp hE]
  · have hne : '}' ∈ cs := by
      by_contra hmem
      have h0 := hiff.mpr hmem
      rw [hE] at h0
      simp at h0
    simp [Lambda1.takeToLastClose, hE, hne]

theorem searchOuter_eq_none_of (cs : List Char) (h : '}' ∉ cs) :
    Lambda1.searchOuter cs = Option.none := by
  induction cs with
  | nil => rfl
  | cons c rest ih =>
    have hrest : '}' ∉ rest := fun hm => h (List.mem_cons_of_mem _ hm)
    by_cases hc : c = '{'
    · subst hc
      have hnone : Lambda1.takeToLastClose ('{' :: rest) = Option.none :=
        (takeToLastClose_eq_none_iff _).mpr h
      simp [Lambda1.searchOuter, hnone, ih hrest]
    · simp [Lambda1.searchOuter, hc, ih hrest]

theorem searchOuter_eq (cs : List Char) :
    Lambda1.searchOuter cs = Lambda1.takeToLastClose (cs.dropWhile (fun c => c ≠ '{')) := by
  induction cs with
  | nil => rfl
  | cons c rest ih =>
    by_cases hc : c = '{'
    · subst hc
      have hd : List.dropWhile (fun c => decide (c ≠ '{')) ('{' :: rest) = '{' :: rest := by
        simp [List.dropWhile_cons]
      rw [hd]
      cases hT : Lambda1.takeToLastClose ('{' :: rest) with
      | none =>
        have hnmem : '}' ∉ ('{' :: rest) := (takeToLastClose_eq_none_iff _).mp hT
        have hrest : '}' ∉ rest := fun hm => hnmem (List.mem_cons_of_mem _ hm)
        simp [Lambda1.searchOuter, hT, searchOuter_eq_none_of rest hrest]
      | some m =>
        simp [Lambda1.searchOuter, hT]
    · have hd : List.dropWhile (fun c => decide (c ≠ '{')) (c :: rest) =
          List.dropWhile (fun c => decide (c ≠ '{')) rest := by
        simp [List.dropWhile_cons, hc]
      rw [hd]
      simpa [Lambda1.searchOuter, hc] using ih

/-- Claim C7 counterexample: the extraction stage's parser
(`_extract_json_from_text`) raises on the text `"[1, 2]"` even though that
text is itself a balanced top-level JSON array (as the policy parser's own
balanced-slice strategy confirms) — so the extraction-stage parser does not
implement the claimed fenced-block / balanced-object-or-array chain. -/
theorem c7_counterexample :
    Lambda1.extract_json_from_text "[1, 2]" = Except.error "Model did not return JSON."
    ∧ Lambda3.balanced_slice "[1, 2]".toList '[' ']' = some "[1, 2]".toList := by
  exact ⟨rfl, rfl⟩

/-- Claim C7 (amended): the ordered strategy chain (fenced block, then first
balanced object/array) is the policy parser's algorithm
(`src/lambda3/parsingPolicies.py` `_extract_json`); the extraction stage's
parser (`src/lambda1.py` `_extract_json_from_text`) instead applies the
single greedy strategy `\{.*\}` — the substring from the first brace through
the last closing brace — erring exactly when the text is empty or no such
substring exists (or, downstream, when parsing the candidate fails); fenced
blocks get no special handling and top-level arrays are never matched. -/
theorem c7_extract_json_amended (text : String) :
    Lambda1.extract_json_from_text text =
      (if text = "" then Except.error "Model returned empty text."
       else
         match Lambda1.takeToLastClose (text.toList.dropWhile (fun c => c ≠ '{')) with
         | Option.none => Except.error "Model did not return JSON."
         | some m => Except.ok (String.mk m)) := by
  unfold Lambda1.extract_json_from_text
  rw [searchOuter_eq]

theorem dvalInduction (P : Lambda1.DVal → Prop)
    (h0 : P .none) (h1 : ∀ s, P (.str s)) (h2 : ∀ i, P (.int i))
    (h3 : ∀ q, P (.float q)) (h4 : ∀ d, P (.dec d))
    (h5 : ∀ xs, (∀ x ∈ xs, P x) → P (.list xs))
    (h6 : ∀ kvs, (∀ kv ∈ kvs, P kv.2) → P (.dict kvs)) :
    ∀ v, P v := fun v =>
  match v with
  | .none => h0
  | .str s => h1 s
  | .int i => h2 i
  | .float q => h3 q
  | .dec d => h4 d
  | .list xs => h5 xs (fun x hx => dvalInduction P h0 h1 h2 h3 h4 h5 h6 x)
  | .dict kvs => h6 kvs (fun kv hkv => dvalInduction P h0 h1 h2 h3 h4 h5 h6 kv.2)
termination_by v => sizeOf v
decreasing_by
  · have := List.sizeOf_lt_of_mem hx
    simp only [Lambda1.DVal.list.sizeOf_spec]
    omega
  · have h := List.sizeOf_lt_of_mem hkv
    obtain ⟨a, b⟩ := kv
    simp only [Lambda1.DVal.dict.sizeOf_spec, Prod.mk.sizeOf_spec] at *
    omega

theorem cleanList_idem_of (xs : List Lambda1.DVal)
    (h : ∀ x ∈ xs, Lambda1.clean_for_ddb (Lambda1.clean_for_ddb x) = Lambda1.clean_for_ddb x) :
    Lambda1.cleanList (Lambda1.cleanList xs) = Lambda1.cleanList xs := by
  induction xs with
  | nil => rfl
  | cons x xs ih =>
    have hx := h x (List.mem_cons_self x xs)
    have hrest := ih (fun y hy => h y (List.mem_cons_of_mem _ hy))
    by_cases hd : Lambda1.isDropped (Lambda1.clean_for_ddb x) = true
    · simp only [Lambda1.cleanList, hd, if_true]
      exact hrest
    · simp only [Lambda1.cleanList, hd, if_false]
      simp only [Bool.not_eq_true] at hd
      simp only [Lambda1.cleanList, hx, hd, if_false]
      rw [hrest]

theorem cleanDict_idem_of (kvs : List (String × Lambda1.DVal))
    (h : ∀ kv ∈ kvs,
      Lambda1.clean_for_ddb (Lambda1.clean_for_ddb kv.2) = Lambda1.clean_for_ddb kv.2) :
    Lambda1.cleanDict (Lambda1.cleanDict kvs) = Lambda1.cleanDict kvs := by
  induction kvs with
  | nil => rfl
  | cons kv kvs ih =>
    obtain ⟨k, v⟩ := kv
    have hx := h (k, v) (List.mem_cons_self _ kvs)
    have hrest := ih (fun y hy => h y (List.mem_cons_of_mem _ hy))
    by_cases hd : Lambda1.isDropped (Lambda1.clean_for_ddb v) = true
    · simp only [Lambda1.cleanDict, hd, if_true]
      exact hrest
    · simp only [Lambda1.cleanDict, hd, if_false]
      simp only [Bool.not_eq_true] at hd
      simp only [Lambda1.cleanDict] at hx ⊢
      simp only [hx, hd, if_false]
      rw [hrest]

theorem clean_idem_aux :
    ∀ v, Lambda1.clean_for_ddb (Lambda1.clean_for_ddb v) = Lambda1.clean_for_ddb v := by
  refine dvalInduction _ rfl (fun s => rfl) (fun i => rfl) (fun q => rfl) (fun d => rfl) ?_ ?_
  · intro xs h
    show Lambda1.DVal.list (Lambda1.cleanList (Lambda1.cleanList xs))
        = Lambda1.DVal.list (Lambda1.cleanList xs)
    rw [cleanList_idem_of xs h]
  · intro kvs h
    show Lambda1.DVal.dict (Lambda1.cleanDict (Lambda1.cleanDict kvs))
        = Lambda1.DVal.dict (Lambda1.cleanDict kvs)
    rw [cleanDict_idem_of kvs h]

theorem cleanList_ok_of (xs : List Lambda1.DVal)
    (h : ∀ x ∈ xs, Lambda1.cleanedOk (Lambda1.clean_for_ddb x) = true) :
    Lambda1.cleanedOkList (Lambda1.cleanList xs) = true := by
  induction xs with
  | nil => rfl
  | cons x xs ih =>
    have hx := h x (List.mem_cons_self x xs)
    have hrest := ih (fun y hy => h y (List.mem_cons_of_mem _ hy))
    by_cases hd : Lambda1.isDropped (Lambda1.clean_for_ddb x) = true
    · simp only [Lambda1.cleanList, hd, if_true]
      exact hrest
    · simp only [Lambda1.cleanList, hd, if_false]
      simp only [Bool.not_eq_true] at hd
      simp only [Lambda1.cleanedOkList, hd, hx, hrest]
      rfl

theorem cleanDict_ok_of (kvs : List (String × Lambda1.DVal))
    (h : ∀ kv ∈ kvs, Lambda1.cleanedOk (Lambda1.clean_for_ddb kv.2) = true) :
    Lambda1.cleanedOkDict (Lambda1.cleanDict kvs) = true := by
  induction kvs with
  | nil => rfl
  | cons kv kvs ih =>
    obtain ⟨k, v⟩ := kv
    have hx := h (k, v) (List.mem_cons_self _ kvs)
    have hrest := ih (fun y hy => h y (List.mem_cons_of_mem _ hy))
    by_cases hd : Lambda1.isDropped (Lambda1.clean_for_ddb v) = true
    · simp only [Lambda1.cleanDict, hd, if_true]
      exact hrest
    · simp only [Lambda1.cleanDict, hd, if_false]
      simp only [Bool.not_eq_true] at hd
      simp only [Lambda1.cleanedOkDict, hd, hx, hrest]
      rfl

theorem clean_ok_aux :
    ∀ v, Lambda1.cleanedOk (Lambda1.clean_for_ddb v) = true := by
  refine dvalInduction _ rfl (fun s => rfl) (fun i => rfl) (fun q => rfl) (fun d => rfl) ?_ ?_
  · intro xs h
    show Lambda1.cleanedOkList (Lambda1.cleanList xs) = true
    exact cleanList_ok_of xs h
  · intro kvs h
    show Lambda1.cleanedOkDict (Lambda1.cleanDict kvs) = true
    exact cleanDict_ok_of kvs h

/-- Claim C10 counterexample: the sanitizer's output can contain `None` and
the empty string — at the top level both pass through unchanged (the `None`
falls into the final `else: return obj` branch and `""` into the string
branch), so the claimed "no `None` values or empty strings at any nesting
depth" characterization fails even though idempotence holds. -/
theorem c10_counterexample :
    Lambda1.clean_for_ddb Lambda1.DVal.none = Lambda1.DVal.none
    ∧ Lambda1.clean_for_ddb (Lambda1.DVal.str "") = Lambda1.DVal.str "" :=
  ⟨rfl, rfl⟩

/-- Claim C10 (amended): `_clean_for_ddb` is idempotent on every value
built from `None`, strings, non-boolean ints/floats, Decimals, lists and
dicts; its output contains no `None` or empty-string *below the top level*
(inside any list or dict, at any depth) and every numeric leaf is already
Decimal — but a top-level `None` or `""` is returned unchanged. -/
theorem c10_clean_idempotent (v : Lambda1.DVal) :
    Lambda1.clean_for_ddb (Lambda1.clean_for_ddb v) = Lambda1.clean_for_ddb v
    ∧ Lambda1.cleanedOk (Lambda1.clean_for_ddb v) = true :=
  ⟨clean_idem_aux v, clean_ok_aux v⟩

/-- Claim C1 counterexample: in the claim's own scenario — one line item
whose code has no matching reference entry and zero diagnoses — the
validation verdict is `true`, not `false`: the handler records the
missing-diagnosis and missing-reference issues but never flips `all_valid`
in those branches. -/
theorem c1_counterexample :
    (Lambda2.lambda_handler Lambda2.envC1 (some "T")).all_valid = true
    ∧ (Lambda2.lambda_handler Lambda2.envC1 (some "T")).issues =
        ["No ICD entries found for table_id T",
         "No ICD codes available to justify CPTs.",
         "CPT 99213 not found in CPT reference table."] :=
  ⟨rfl, rfl⟩

/-- Claim C1 (amended): with at least one line item present, no diagnosis
rows at all, and the line item's code absent from the reference table, the
issue log records the no-diagnoses condition, the no-usable-ICD condition
and the reference miss — but the overall verdict `all_valid` remains
`true`: only description mismatches, an explicit justification failure, or
the complete absence of line items flip it. -/
theorem c1_no_diagnosis_amended (env : Lambda2.ValidationEnv) (tid code desc : String)
    (h1 : env.icdEntries = []) (h2 : env.cptCodes = [⟨code, desc⟩])
    (h3 : env.refCpt code = Option.none) :
    (Lambda2.lambda_handler env (some tid)).all_valid = true
    ∧ (Lambda2.lambda_handler env (some tid)).issues =
        ["No ICD entries found for table_id " ++ tid,
         "No ICD codes available to justify CPTs.",
         "CPT " ++ code ++ " not found in CPT reference table."] := by
  unfold Lambda2.lambda_handler
  simp only [h1, h2, List.isEmpty_nil, if_true, List.isEmpty_cons]
  simp [Lambda2.cptPhase, h3, Lambda2.icdZip, Lambda2.cptZip]

/-- Witness for the amended C1 on a concrete environment. -/
theorem c1_no_diagnosis_amended_witness :
    (Lambda2.lambda_handler Lambda2.envC1 (some "T2")).all_valid = true
    ∧ (Lambda2.lambda_handler Lambda2.envC1 (some "T2")).issues =
        ["No ICD entries found for table_id " ++ "T2",
         "No ICD codes available to justify CPTs.",
         "CPT " ++ "99213" ++ " not found in CPT reference table."] :=
  c1_no_diagnosis_amended Lambda2.envC1 "T2" "99213" "" rfl rfl rfl

/-- Claim C2 counterexample: with one queued diagnosis pair whose batched
comparison token is unparseable (the comparison returns `[None]`), the
handler appends no mismatch issue at all and the verdict stays `true` — a
`None` pair is treated like a YES, not like an explicit NO. -/
theorem c2_counterexample :
    Lambda2.envC2.icdCompare [("flu", "influenza")] = [Option.none]
    ∧ (Lambda2.lambda_handler Lambda2.envC2 (some "T")).issues = []
    ∧ (Lambda2.lambda_handler Lambda2.envC2 (some "T")).all_valid = true :=
  ⟨rfl, rfl, rfl⟩

/-- Claim C2 (amended): a pair whose comparison token is unparseable
(`None`), or that belongs to a comparison call that failed as a whole (an
all-`None` result list), is treated by the result loops the same as an
explicit YES: no mismatch issue is appended and the verdict is not flipped,
while the pair still contributes its reference description to the
justification evidence. -/
theorem c2_unparseable_pair_amended (it : Lambda2.IcdItemV) (its : List Lambda2.IcdItemV)
    (rs : List (Option Bool)) (ct : Lambda2.CptItemV) (cts : List Lambda2.CptItemV)
    (crs : List (Option Bool)) (items : List Lambda2.IcdItemV) :
    (Lambda2.icdZip (it :: its) (Option.none :: rs)
        = Lambda2.icdZip (it :: its) (some true :: rs)
      ∧ (Lambda2.icdZip (it :: its) (Option.none :: rs)).issues
          = (Lambda2.icdZip its rs).issues
      ∧ (Lambda2.icdZip (it :: its) (Option.none :: rs)).forJust
          = ⟨it.code, it.ref_desc⟩ :: (Lambda2.icdZip its rs).forJust
      ∧ (Lambda2.icdZip (it :: its) (Option.none :: rs)).mismatch
          = (Lambda2.icdZip its rs).mismatch)
    ∧ Lambda2.cptZip (ct :: cts) (Option.none :: crs)
        = Lambda2.cptZip (ct :: cts) (some true :: crs)
    ∧ ((Lambda2.icdZip items (List.replicate items.length Option.none)).issues = []
      ∧ (Lambda2.icdZip items (List.replicate items.length Option.none)).forJust
          = items.map (fun i => ⟨i.code, i.ref_desc⟩)
      ∧ (Lambda2.icdZip items (List.replicate items.length Option.none)).mismatch
          = false) := by
  refine ⟨⟨rfl, rfl, rfl, rfl⟩, rfl, ?_⟩
  induction items with
  | nil => exact ⟨rfl, rfl, rfl⟩
  | cons x xs ih =>
    simp only [List.length_cons, List.replicate_succ, Lambda2.icdZip, List.map_cons]
    exact ⟨ih.1, by rw [ih.2.1], ih.2.2⟩

/-- Claim C3: when the direct-invocation event carries a validation result
with `all_valid == False`, the reconciliation model is never invoked;
instead the handler writes an `invalid_bill` comparison carrying the
aggregated issue text and runs cleanup of every CorrelationId-scoped table
(patient, provider, bill summary, line items, diagnoses) before returning a
failed result. -/
theorem c3_invalid_bill_short_circuit (proceed : Lambda3.L3Result × List Lambda3.L3Effect)
    (v : Lambda3.ValidationIn) (tid : String) (h : v.all_valid = some false) :
    Lambda3.handler_direct proceed (some v) tid
      = (⟨false, some (Lambda3.invalid_message v)⟩,
         Lambda3.L3Effect.putObject "invalid_bill" (Lambda3.invalid_message v)
           :: Lambda3.cleanup_all_effects)
    ∧ Lambda3.L3Effect.modelInvoke ∉ (Lambda3.handler_direct proceed (some v) tid).2
    ∧ Lambda3.L3Effect.cleanupTable "patient_info"
        ∈ (Lambda3.handler_direct proceed (some v) tid).2
    ∧ Lambda3.L3Effect.cleanupTable "provider_info"
        ∈ (Lambda3.handler_direct proceed (some v) tid).2
    ∧ Lambda3.L3Effect.cleanupTable "medical_bill_info"
        ∈ (Lambda3.handler_direct proceed (some v) tid).2
    ∧ Lambda3.L3Effect.cleanupTable "cpt_codes"
        ∈ (Lambda3.handler_direct proceed (some v) tid).2
    ∧ Lambda3.L3Effect.cleanupTable "icd_codes"
        ∈ (Lambda3.handler_direct proceed (some v) tid).2
    ∧ (v.cpt_icd_justification_issue = Option.none → v.issues ≠ [] →
        String.intercalate "; " v.issues ≠ "" →
        Lambda3.invalid_message v
          = "The bill is invalid because: " ++ String.intercalate "; " v.issues) := by
  have hh : Lambda3.handler_direct proceed (some v) tid
      = (⟨false, some (Lambda3.invalid_message v)⟩,
         Lambda3.L3Effect.putObject "invalid_bill" (Lambda3.invalid_message v)
           :: Lambda3.cleanup_all_effects) := by
    simp [Lambda3.handler_direct, h]
  refine ⟨hh, ?_, ?_, ?_, ?_, ?_, ?_, ?_⟩
  · rw [hh]
    simp [Lambda3.cleanup_all_effects]
  · rw [hh]; simp [Lambda3.cleanup_all_effects]
  · rw [hh]; simp [Lambda3.cleanup_all_effects]
  · rw [hh]; simp [Lambda3.cleanup_all_effects]
  · rw [hh]; simp [Lambda3.cleanup_all_effects]
  · rw [hh]; simp [Lambda3.cleanup_all_effects]
  · intro hmain hissues hne
    rcases hv : v.issues with _ | ⟨a, as⟩
    · exact absurd hv hissues
    · rw [hv] at hne
      unfold Lambda3.invalid_message Lambda3.invalid_reason Lambda3.reason_parts
      rw [hmain, hv]
      simp only [List.isEmpty_cons, Bool.false_eq_true, if_false, List.nil_append]
      have hgo : String.intercalate " " [String.intercalate "; " (a :: as)]
          = String.intercalate "; " (a :: as) := rfl
      rw [hgo, if_neg hne]

/-- Witness for C3 on a concrete failed validation. -/
theorem c3_invalid_bill_short_circuit_witness :
    Lambda3.handler_direct (⟨true, Option.none⟩, [Lambda3.L3Effect.modelInvoke])
        (some ⟨some false, ["no CPT codes"], Option.none⟩) "T"
      = (⟨false, some (Lambda3.invalid_message ⟨some false, ["no CPT codes"], Option.none⟩)⟩,
         Lambda3.L3Effect.putObject "invalid_bill"
             (Lambda3.invalid_message ⟨some false, ["no CPT codes"], Option.none⟩)
           :: Lambda3.cleanup_all_effects)
    ∧ Lambda3.invalid_message ⟨some false, ["no CPT codes"], Option.none⟩
        = "The bill is invalid because: no CPT codes" := by
  have h := c3_invalid_bill_short_circuit (⟨true, Option.none⟩, [Lambda3.L3Effect.modelInvoke])
    ⟨some false, ["no CPT codes"], Option.none⟩ "T" rfl
  refine ⟨h.1, ?_⟩
  have h2 := h.2.2.2.2.2.2.2 rfl (by decide) (by decide)
  exact h2.trans (by decide)

/-- Claim C8: `_to_number` passes numeric inputs through exactly, parses the
first numeric substring of a comma-stripped string (so `"$1,234.50"` yields
1234.50), and normalizes any string without a numeric substring — such as
`"n/a"` — to absent (`None`), never zero. -/
theorem c8_to_number (i : Int) (q : ℚ) (s : String)
    (h : Lambda1.searchNum (s.toList.filter (fun c => c ≠ ',')) = Option.none) :
    Lambda1.to_number (.int i) = some (i : ℚ)
    ∧ Lambda1.to_number (.float q) = some q
    ∧ Lambda1.to_number (.str "$1,234.50") = some (2469 / 2 : ℚ)
    ∧ Lambda1.to_number (.str "n/a") = Option.none
    ∧ Lambda1.to_number (.str s) = Option.none := by
  refine ⟨rfl, rfl, ?_, rfl, ?_⟩
  · show some (Lambda1.numValue ['1', '2', '3', '4', '.', '5', '0']) = some (2469 / 2 : ℚ)
    have h1 : Lambda1.numValue ['1', '2', '3', '4', '.', '5', '0']
        = ((123450 : ℕ) : ℚ) / ((10 ^ 2 : ℕ) : ℚ) := rfl
    rw [h1]
    norm_num
  show (match Lambda1.searchNum (s.toList.filter (fun c => c ≠ ',')) with
    | some m => some (Lambda1.numValue m)
    | Option.none => Option.none) = Option.none
  rw [h]

/-- Witness for C8 instantiated at `s = "n/a"`. -/
theorem c8_to_number_witness :
    Lambda1.to_number (.int 3) = some ((3 : Int) : ℚ)
    ∧ Lambda1.to_number (.str "n/a") = Option.none :=
  ⟨(c8_to_number 3 0 "n/a" (by decide)).1, (c8_to_number 3 0 "n/a" (by decide)).2.2.2.1⟩
